import Mathlib

/-
Formal model of the tabular statistics utilities (a single JavaScript module of
data-processing helpers: `calculateStatistics`, `findAnomalies`,
`countMissingValues`, `filterData`, `groupBy`, `aggregateGroups`,
`detectColumnTypes`).

Modelling choices, stated once here:
* JavaScript numbers are modelled by exact rationals `ℚ`; `NaN` is modelled by
  `Option` (a failed parse is `none`) and, where the code can actually produce
  `NaN`/`Infinity` as a stored result (`aggregateGroups`), by the `JsNum` type.
* A row object is an association list from column names to cell values; cell
  values carry the loosely-typed JavaScript payloads that reach this module
  (number, string, null, boolean); an absent column models `undefined`.
* `parseFloat`, `Number`, `String(...)` coercion, `Math.round`, and the
  truthiness test of `||` are each given explicit executable models below,
  translated from their ECMAScript behavior on the value shapes above.
* `Math.sqrt` (used only by `findAnomalies`) is modelled by `Real.sqrt`; the
  anomaly filter itself is kept computable through the equivalent squared
  comparison, proved equivalent in `anomalyTest_iff_sqrt`.
-/

unseal Rat.add Rat.mul Rat.sub Rat.inv

namespace TabularStats

/-- Raw cell value of a row object: the loosely-typed payloads that reach the
module (a number, a string, `null`, or a boolean). `undefined` is modelled by
the absence of the column, i.e. by `Option Value` being `none` at use sites. -/
inductive Value where
  | num (q : ℚ)
  | str (s : String)
  | null
  | bool (b : Bool)
deriving DecidableEq

/-- A row is an insertion-ordered object mapping column names to values. -/
abbrev Row := List (String × Value)

/-- Property read on an insertion-ordered object: first binding of the key. -/
def objLookup {α : Type} : List (String × α) → String → Option α
  | [], _ => none
  | (k, v) :: rest, key => if k = key then some v else objLookup rest key

/-- Cell access `row[column]`; `none` models `undefined`. -/
def getCell (row : Row) (column : String) : Option Value :=
  objLookup row column

/-- Whitespace skipped by JavaScript numeric string conversions. -/
def jsWhitespace (c : Char) : Bool :=
  c == ' ' || c == '\t' || c == '\n' || c == '\r'

/-- Splits a character list into its leading run of decimal digits and the rest. -/
def splitDigits (cs : List Char) : List Char × List Char :=
  (cs.takeWhile Char.isDigit, cs.dropWhile Char.isDigit)

/-- Numeric value of a list of decimal digit characters. -/
def digitsVal (cs : List Char) : ℕ :=
  cs.foldl (fun n c => 10 * n + (c.toNat - 48)) 0

/-- Parses an unsigned decimal literal `digits [. digits] [e [sign] digits]` at
the head of the input, returning its value and the unconsumed remainder, or
`none` when no digit is found (the shared core of `parseFloat` and `Number`
string conversion; an ill-formed exponent part is left unconsumed, as
`parseFloat` does). -/
def parseDecCore (cs : List Char) : Option (ℚ × List Char) :=
  let (ip, r1) := splitDigits cs
  let (fp, r2) :=
    match r1 with
    | '.' :: rest => splitDigits rest
    | _ => ([], r1)
  if ip.isEmpty && fp.isEmpty then none
  else
    let base : ℚ := (digitsVal ip : ℚ) + (digitsVal fp : ℚ) / (10 : ℚ) ^ fp.length
    match r2 with
    | c :: rest =>
      if c == 'e' || c == 'E' then
        let (sgn, ds0) : ℤ × List Char :=
          match rest with
          | '-' :: t => (-1, t)
          | '+' :: t => (1, t)
          | t => (1, t)
        let (ed, r3) := splitDigits ds0
        if ed.isEmpty then some (base, r2)
        else some (base * (10 : ℚ) ^ (sgn * (digitsVal ed : ℤ)), r3)
      else some (base, r2)
    | [] => some (base, [])

/-- Parses an optionally signed decimal literal at the head of the input. -/
def parseSignedCore (cs : List Char) : Option (ℚ × List Char) :=
  match cs with
  | '-' :: rest => (parseDecCore rest).map (fun p => (-p.1, p.2))
  | '+' :: rest => parseDecCore rest
  | _ => parseDecCore cs

/-- JavaScript `parseFloat` on a string: skip leading whitespace, parse the
longest signed decimal prefix, ignore trailing garbage; `none` models `NaN`.
(The `Infinity` literal and hexadecimal forms are not modelled; no claim
exercises them.) -/
def parseFloatStr (s : String) : Option ℚ :=
  (parseSignedCore (s.toList.dropWhile jsWhitespace)).map Prod.fst

/-- JavaScript `Number` conversion of a string: after trimming whitespace the
empty string is `0` and otherwise the whole string must be a signed decimal
literal; `none` models a non-finite result (`NaN`, or the unmodelled
`Infinity`), which is exactly what the `isFinite` call in the source checks. -/
def jsNumberStr (s : String) : Option ℚ :=
  let cs := ((s.toList.dropWhile jsWhitespace).reverse.dropWhile jsWhitespace).reverse
  match cs with
  | [] => some 0
  | _ =>
    match parseSignedCore cs with
    | some (q, []) => some q
    | _ => none

/-- Least exponent `k ≤ 64` with `den ∣ 10 ^ k`, i.e. the fractional width of a
finite decimal expansion when one exists. -/
def decExpSearch (den : ℕ) : Option ℕ :=
  (List.range 65).find? (fun k => 10 ^ k % den == 0)

/-- Pads a digit string on the left with zeros to width `k`. -/
def padZeros (s : String) (k : ℕ) : String :=
  String.mk (List.replicate (k - s.length) '0') ++ s

/-- Rendering of a JavaScript number as a string (`String(x)`): exact for
integers and for finite decimal fractions; a value with no finite decimal
expansion is truncated to 17 fractional digits (JavaScript prints the shortest
round-tripping decimal of the underlying double; no claim exercises such
values). -/
def numToString (q : ℚ) : String :=
  if q.den = 1 then toString q.num
  else
    let sign := if q < 0 then "-" else ""
    let a : ℚ := |q|
    let k := (decExpSearch q.den).getD 17
    let ip : ℕ := a.floor.toNat
    let fracNum : ℕ := ((a - (ip : ℚ)) * (10 : ℚ) ^ k).floor.toNat
    sign ++ toString ip ++ "." ++ padZeros (toString fracNum) k

/-- JavaScript `String(v)` on a cell value. -/
def jsToString : Value → String
  | .num q => numToString q
  | .str s => s
  | .null => "null"
  | .bool b => if b then "true" else "false"

/-- JavaScript `String(v)` including the `undefined` case. -/
def jsToStringU : Option Value → String
  | none => "undefined"
  | some v => jsToString v

/-- JavaScript `parseFloat(v)` on a cell value: the argument is coerced to a
string and parsed (for an actual number the coercion round-trips, so the value
itself is returned; `null`, booleans and `undefined` coerce to the unparseable
strings `"null"`, `"true"`/`"false"`, `"undefined"`). `none` models `NaN`. -/
def parseFloatVal : Value → Option ℚ
  | .num q => some q
  | .str s => parseFloatStr s
  | .null => none
  | .bool _ => none

/-- JavaScript `parseFloat(row[column])`, `undefined` included. -/
def parseFloatV : Option Value → Option ℚ
  | some v => parseFloatVal v
  | none => none

/-- JavaScript `Number(v)` coercion of a cell value (`null` is `0`, booleans
are `0`/`1`); used by the `isFinite` test of the type detector. `none` models a
non-finite result. -/
def jsNumberV : Option Value → Option ℚ
  | some (.num q) => some q
  | some (.str s) => jsNumberStr s
  | some .null => some 0
  | some (.bool b) => some (if b then 1 else 0)
  | none => none

/-- JavaScript truthiness of `row[column]` as tested by `||`: `undefined`,
`null`, `0`, the empty string and `false` are falsy. -/
def truthy : Option Value → Bool
  | some (.num q) => q != 0
  | some (.str s) => s != ""
  | some (.bool b) => b
  | some .null => false
  | none => false

/-- JavaScript `toLowerCase()`, modelled characterwise (the kernel-reducible
counterpart of `String.toLower`). -/
def lowerStr (s : String) : String :=
  String.mk (s.toList.map Char.toLower)

/-- JavaScript `Math.round`: round half toward positive infinity. -/
def jsRound (q : ℚ) : ℤ := ⌊q + 1 / 2⌋

/-- Rounding to two decimals exactly as the source writes it:
`Math.round(x * 100) / 100`. -/
def round2 (q : ℚ) : ℚ := (jsRound (q * 100) : ℚ) / 100

/-- Statistics record returned by `calculateStatistics`. -/
structure StatisticsSummary where
  column : String
  count : ℕ
  mean : ℚ
  median : ℚ
  min : ℚ
  max : ℚ
  sum : ℚ
deriving DecidableEq

/-- Numeric extraction shared by the statistics helpers:
`data.map(row => parseFloat(row[column])).filter(val => !isNaN(val))`. -/
def numericValues (data : List Row) (column : String) : List ℚ :=
  data.filterMap (fun row => parseFloatV (getCell row column))

/-- Value of `Math.min(...values)` for a nonempty list (the empty case, which
would be `Infinity`, is represented at the one call site that can reach it via
`JsNum` in `aggregateOp`). -/
def listMin : List ℚ → ℚ
  | [] => 0
  | x :: xs => xs.foldl min x

/-- Value of `Math.max(...values)` for a nonempty list. -/
def listMax : List ℚ → ℚ
  | [] => 0
  | x :: xs => xs.foldl max x

/-- Arithmetic mean `values.reduce((a, b) => a + b, 0) / values.length`. -/
def meanOf (l : List ℚ) : ℚ := l.sum / (l.length : ℚ)

/-- The median computation of `calculateStatistics`: average of the two middle
entries of the ascending sort for an even length, the middle entry otherwise.
The engine's `sort((a, b) => a - b)` is modelled by insertion sort — only the
resulting ascending order is observable. -/
def medianOf (l : List ℚ) : ℚ :=
  let sorted := l.insertionSort (· ≤ ·)
  if sorted.length % 2 = 0 then
    (sorted.getD (sorted.length / 2 - 1) 0 + sorted.getD (sorted.length / 2) 0) / 2
  else sorted.getD (sorted.length / 2) 0

/-- The `calculateStatistics(data, column)` function: `none` models the
`null` return. -/
def calculateStatistics (data : List Row) (column : String) : Option StatisticsSummary :=
  if data.isEmpty then none
  else
    let values := numericValues data column
    if values.isEmpty then none
    else
      some ⟨column, values.length, round2 (meanOf values), round2 (medianOf values),
        listMin values, listMax values, round2 values.sum⟩

/-- Anomaly record reported by `findAnomalies`; the deviation is a real number
because the source divides by `Math.sqrt(variance)`. -/
structure Anomaly where
  index : ℕ
  value : ℚ
  deviation : ℝ

/-- Indexed numeric extraction of `findAnomalies`:
`data.map((row, idx) => ({value: parseFloat(row[column]), index: idx}))`
followed by the `isNaN` filter. -/
def indexedValues (data : List Row) (column : String) : List (ℕ × ℚ) :=
  data.enum.filterMap (fun p => (parseFloatV (getCell p.2 column)).map (fun q => (p.1, q)))

/-- Population variance
`numbers.reduce((sum, val) => sum + Math.pow(val - mean, 2), 0) / numbers.length`. -/
def varianceOf (l : List ℚ) : ℚ :=
  (l.map (fun v => (v - meanOf l) ^ 2)).sum / (l.length : ℚ)

/-- The flagged entries of `findAnomalies`: the source keeps `item` whenever
`Math.abs(item.value - mean) > 2 * stdDev` with `stdDev = Math.sqrt(variance)`;
since both sides are nonnegative this is the squared comparison
`(value - mean)² > 4 * variance`, which keeps the filter computable over `ℚ`
(equivalence proved in `anomalyTest_iff_sqrt`). -/
def anomalousValues (data : List Row) (column : String) : List (ℕ × ℚ) :=
  if data.isEmpty then []
  else
    let values := indexedValues data column
    if values.length < 3 then []
    else
      let numbers := values.map Prod.snd
      values.filter (fun item => decide ((item.2 - meanOf numbers) ^ 2 > 4 * varianceOf numbers))

/-- Rounding of `Math.round` carried out on a real argument. -/
noncomputable def jsRoundR (x : ℝ) : ℤ := ⌊x + 1 / 2⌋

/-- The `findAnomalies(data, column)` function: the flagged entries decorated
with the reported deviation `(value - mean) / stdDev`, rounded to two
decimals. -/
noncomputable def findAnomalies (data : List Row) (column : String) : List Anomaly :=
  let numbers := (indexedValues data column).map Prod.snd
  let stdDev : ℝ := Real.sqrt ((varianceOf numbers : ℚ) : ℝ)
  (anomalousValues data column).map (fun a =>
    ⟨a.1, a.2, (jsRoundR (((a.2 - meanOf numbers : ℚ) : ℝ) / stdDev * 100) : ℝ) / 100⟩)

/-- Per-column record of `countMissingValues`. -/
structure MissingReport where
  count : ℕ
  percentage : ℚ
deriving DecidableEq

/-- The missingness test of `countMissingValues`:
`row[col] === null || row[col] === undefined || row[col] === '' || row[col] === 'N/A'`
(strict equality, so only the exact strings `''` and `'N/A'` qualify). -/
def isMissing : Option Value → Bool
  | none => true
  | some .null => true
  | some (.str s) => s == "" || s == "N/A"
  | some _ => false

/-- Per-column body of `countMissingValues`: the count of rows whose cell is
missing and the percentage
`Math.round((missingCount / data.length) * 100 * 100) / 100`. -/
def missingReportFor (data : List Row) (col : String) : MissingReport :=
  let missingCount := (data.filter (fun row => isMissing (getCell row col))).length
  ⟨missingCount, (jsRound (((missingCount : ℚ) / (data.length : ℚ)) * 100 * 100) : ℚ) / 100⟩

/-- The `countMissingValues(data, columns)` function. -/
def countMissingValues (data : List Row) (columns : List String) : List (String × MissingReport) :=
  columns.map (fun col => (col, missingReportFor data col))

/-- A declarative filter condition `{column, operator, value}`. -/
structure Filter where
  column : String
  operator : String
  value : Value
deriving DecidableEq

/-- The per-filter test of `filterData`: the `switch (filter.operator)` body. -/
def matchesFilter (row : Row) (f : Filter) : Bool :=
  let value := getCell row f.column
  match f.operator with
  | "equals" => jsToStringU value == jsToString f.value
  | "contains" =>
    decide ((lowerStr (jsToString f.value)).toList <:+: (lowerStr (jsToStringU value)).toList)
  | "greater" =>
    match parseFloatV value, parseFloatVal f.value with
    | some a, some b => decide (a > b)
    | _, _ => false
  | "less" =>
    match parseFloatV value, parseFloatVal f.value with
    | some a, some b => decide (a < b)
    | _, _ => false
  | _ => true

/-- The `filterData(data, filters)` function: keep the rows on which every
filter's test passes. -/
def filterData (data : List Row) (filters : List Filter) : List Row :=
  data.filter (fun row => filters.all (fun f => matchesFilter row f))

/-- Group key of a row: `String(row[column] || 'null')` — the string form of
the value when it is truthy, and the literal `"null"` otherwise. -/
def groupKey (row : Row) (column : String) : String :=
  if truthy (getCell row column) then jsToStringU (getCell row column) else "null"

/-- The mutation `groups[key].push(row)` on an insertion-ordered object:
append the row to the (unique) bucket bound to the key. -/
def updateGroup : List (String × List Row) → String → Row → List (String × List Row)
  | [], _, _ => []
  | (k, l) :: rest, key, row =>
    if k = key then (k, l ++ [row]) :: rest else (k, l) :: updateGroup rest key row

/-- One step of `groupBy`: create the key's bucket if absent, then push the row
at its end. -/
def pushGroup (groups : List (String × List Row)) (key : String) (row : Row) :
    List (String × List Row) :=
  if (objLookup groups key).isSome then updateGroup groups key row
  else groups ++ [(key, [row])]

/-- The `groupBy(data, column)` function, as an insertion-ordered object. -/
def groupBy (data : List Row) (column : String) : List (String × List Row) :=
  data.foldl (fun gs row => pushGroup gs (groupKey row column) row) []

/-- Result of a JavaScript arithmetic reduction as stored by
`aggregateGroups`: a finite number, `NaN`, or a signed infinity. -/
inductive JsNum where
  | nan
  | posInf
  | negInf
  | fin (q : ℚ)
deriving DecidableEq

/-- Row record produced by `aggregateGroups`. -/
structure GroupAggregate where
  group : String
  value : JsNum
  count : ℕ
deriving DecidableEq

/-- The final `Math.round(aggregated * 100) / 100`: `NaN` and the infinities
are fixed points of this transformation in JavaScript. -/
def roundJs : JsNum → JsNum
  | .fin q => .fin (round2 q)
  | x => x

/-- Value of `Math.min(...values)`: `Infinity` on the empty spread. -/
def jsMinList : List ℚ → JsNum
  | [] => .posInf
  | x :: xs => .fin (xs.foldl min x)

/-- Value of `Math.max(...values)`: `-Infinity` on the empty spread. -/
def jsMaxList : List ℚ → JsNum
  | [] => .negInf
  | x :: xs => .fin (xs.foldl max x)

/-- The `switch (operation)` body of `aggregateGroups`: note that the empty
reduction gives `0` for `sum` (explicit initial value), `NaN` for `avg`/`mean`
(`0 / 0`), and the infinities for `min`/`max`. -/
def aggregateOp (values : List ℚ) (operation : String) : JsNum :=
  match operation with
  | "sum" => .fin values.sum
  | "avg" | "mean" =>
    if values.isEmpty then .nan else .fin (values.sum / (values.length : ℚ))
  | "count" => .fin (values.length : ℚ)
  | "min" => jsMinList values
  | "max" => jsMaxList values
  | _ => .fin (values.length : ℚ)

/-- The `aggregateGroups(groups, aggregateColumn, operation)` function. -/
def aggregateGroups (groups : List (String × List Row)) (aggregateColumn : String)
    (operation : String) : List GroupAggregate :=
  groups.map (fun p =>
    let values := p.2.filterMap (fun r => parseFloatV (getCell r aggregateColumn))
    ⟨p.1, roundJs (aggregateOp values operation), p.2.length⟩)

/-- Modelled approximation of the implementation-defined `Date.parse` test of
the type detector: accepts strings starting with an ISO-like `YYYY-MM-DD`
shape. No verified claim depends on its exact behavior — it only occupies the
`date` slot of the precedence chain. -/
def looksLikeDate (v : Value) : Bool :=
  match (jsToString v).toList with
  | y1 :: y2 :: y3 :: y4 :: '-' :: m1 :: m2 :: '-' :: d1 :: d2 :: _ =>
    y1.isDigit && y2.isDigit && y3.isDigit && y4.isDigit &&
      m1.isDigit && m2.isDigit && d1.isDigit && d2.isDigit
  | _ => false

/-- The per-value numeric test of the type detector:
`!isNaN(parseFloat(v)) && isFinite(v)`. -/
def isNumericValue (v : Value) : Bool :=
  (parseFloatVal v).isSome && (jsNumberV (some v)).isSome

/-- The per-value boolean test of the type detector:
`['true', 'false', '1', '0', 'yes', 'no'].includes(String(v).toLowerCase())`. -/
def isBooleanValue (v : Value) : Bool :=
  ["true", "false", "1", "0", "yes", "no"].contains (lowerStr (jsToString v))

/-- The sample inspected per column:
`data.slice(0, 100).map(row => row[col]).filter(v => v != null && v !== '')` —
the first 100 rows, then the removal of `null`/`undefined`/empty cells. -/
def sampleOf (data : List Row) (col : String) : List Value :=
  (data.take 100).filterMap (fun row =>
    match getCell row col with
    | none => none
    | some .null => none
    | some (.str "") => none
    | some v => some v)

/-- The classification if-chain of `detectColumnTypes`, in source order:
empty sample, numeric, date, boolean, string. -/
def typeOfSample (sample : List Value) : String :=
  if sample.isEmpty then "unknown"
  else if sample.all isNumericValue then "number"
  else if sample.any looksLikeDate then "date"
  else if sample.all isBooleanValue then "boolean"
  else "string"

/-- The `detectColumnTypes(data, columns)` function. -/
def detectColumnTypes (data : List Row) (columns : List String) : List (String × String) :=
  columns.map (fun col => (col, typeOfSample (sampleOf data col)))

/-- Lookup of a key in an object built by mapping a function over a key list:
the first (hence any) occurrence of the key yields the function's value. -/
theorem objLookup_map_self {α : Type} (g : String → α) (cols : List String) (col : String)
    (h : col ∈ cols) : objLookup (cols.map (fun c => (c, g c))) col = some (g col) := by
  induction cols with
  | nil => cases h
  | cons c cs ih =>
    simp only [List.map_cons, objLookup]
    by_cases hc : c = col
    · subst hc
      simp
    · rw [if_neg hc]
      rcases List.mem_cons.mp h with h' | h'
      · exact absurd h'.symm hc
      · exact ih h'

/-- C10: for every dataset and filter list, `filterData` returns an
order-preserving subsequence of its input (each kept row is an input row, in
the original relative order, without duplication), and the empty filter list
keeps every row. -/
theorem filterData_sublist (data : List Row) (filters : List Filter) :
    (filterData data filters).Sublist data ∧ filterData data [] = data := by
  constructor
  · exact List.filter_sublist data
  · simp [filterData]

/-- C9: `calculateStatistics` returns the absent value `none` exactly when the
dataset is empty or no cell of the column parses as a number; in every other
case it returns a summary (and, being a total function into `Option`, it never
throws). -/
theorem calculateStatistics_none_iff (data : List Row) (column : String) :
    calculateStatistics data column = none ↔
      (data = [] ∨ numericValues data column = []) := by
  unfold calculateStatistics
  rcases data with _ | ⟨r, rs⟩
  · simp
  · simp only [List.isEmpty_cons, if_false, Bool.false_eq_true]
    by_cases hv : numericValues (r :: rs) column = []
    · simp [hv]
    · simp [hv, List.isEmpty_iff]

/-- C5: `filterData` keeps exactly the rows passing every filter, where
`equals` compares the string coercions of the two sides for exact equality,
`contains` is a case-insensitive substring test on the string coercions,
`greater`/`less` hold exactly when both sides parse as numbers that compare
accordingly (an unparseable side fails the comparison), and any unknown
operator accepts every row; on the spec's example, the rows `{x:'5'}` and
`{x:5}` both pass an `equals` filter with value `5`. -/
theorem filterData_semantics (data : List Row) (filters : List Filter) (row : Row)
    (col : String) (v : Value) :
    (row ∈ filterData data filters ↔
      row ∈ data ∧ ∀ f ∈ filters, matchesFilter row f = true) ∧
    (matchesFilter row ⟨col, "equals", v⟩ =
      (jsToStringU (getCell row col) == jsToString v)) ∧
    (matchesFilter row ⟨col, "contains", v⟩ = true ↔
      (lowerStr (jsToString v)).toList <:+: (lowerStr (jsToStringU (getCell row col))).toList) ∧
    (matchesFilter row ⟨col, "greater", v⟩ = true ↔
      ∃ a b, parseFloatV (getCell row col) = some a ∧ parseFloatVal v = some b ∧ a > b) ∧
    (matchesFilter row ⟨col, "less", v⟩ = true ↔
      ∃ a b, parseFloatV (getCell row col) = some a ∧ parseFloatVal v = some b ∧ a < b) ∧
    (∀ op : String, op ∉ (["equals", "contains", "greater", "less"] : List String) →
      matchesFilter row ⟨col, op, v⟩ = true) ∧
    filterData [[("x", Value.str "5")], [("x", Value.num 5)]] [⟨"x", "equals", Value.num 5⟩]
      = [[("x", Value.str "5")], [("x", Value.num 5)]] := by
  refine ⟨?_, rfl, ?_, ?_, ?_, ?_, by decide⟩
  · simp [filterData, List.mem_filter, List.all_eq_true]
  · simp [matchesFilter]
  · rcases ha : parseFloatV (getCell row col) with _ | a <;>
      rcases hb : parseFloatVal v with _ | b <;>
        simp [matchesFilter, ha, hb]
  · rcases ha : parseFloatV (getCell row col) with _ | a <;>
      rcases hb : parseFloatVal v with _ | b <;>
        simp [matchesFilter, ha, hb]
  · intro op hop
    simp only [List.mem_cons, List.not_mem_nil, or_false, not_or] at hop
    obtain ⟨h1, h2, h3, h4⟩ := hop
    unfold matchesFilter
    split <;> simp_all

/-- Updating the bucket of key `k` in place leaves every other key's lookup
unchanged. -/
theorem objLookup_update_other (gs : List (String × List Row)) (k k' : String) (r : Row)
    (hk : k' ≠ k) :
    objLookup (updateGroup gs k r) k' = objLookup gs k' := by
  induction gs with
  | nil => rfl
  | cons p ps ih =>
    rcases p with ⟨a, b⟩
    by_cases ha : a = k
    · subst ha
      simp only [updateGroup, if_pos rfl, objLookup,
        if_neg (fun he : a = k' => hk he.symm)]
    · simp only [updateGroup, if_neg ha, objLookup]
      by_cases ha' : a = k'
      · rw [if_pos ha', if_pos ha']
      · rw [if_neg ha', if_neg ha']
        exact ih

/-- Appending a fresh bucket for key `k` leaves every other key's lookup
unchanged. -/
theorem objLookup_append_other (gs : List (String × List Row)) (k k' : String) (r : Row)
    (hk : k' ≠ k) :
    objLookup (gs ++ [(k, [r])]) k' = objLookup gs k' := by
  induction gs with
  | nil => simp only [List.nil_append, objLookup, if_neg (fun he : k = k' => hk he.symm)]
  | cons p ps ih =>
    rcases p with ⟨a, b⟩
    simp only [List.cons_append, objLookup]
    by_cases ha : a = k'
    · rw [if_pos ha, if_pos ha]
    · rw [if_neg ha, if_neg ha]
      exact ih

/-- Updating the bucket of a present key appends the row to that bucket. -/
theorem objLookup_update_same (gs : List (String × List Row)) (k : String) (r : Row)
    (l : List Row) (h : objLookup gs k = some l) :
    objLookup (updateGroup gs k r) k = some (l ++ [r]) := by
  induction gs with
  | nil => cases h
  | cons p ps ih =>
    rcases p with ⟨a, b⟩
    by_cases ha : a = k
    · simp only [objLookup, if_pos ha] at h
      simp only [updateGroup, if_pos ha, objLookup, if_pos ha]
      rw [Option.some_inj.mp h]
    · simp only [objLookup, if_neg ha] at h
      simp only [updateGroup, if_neg ha, objLookup, if_neg ha]
      exact ih h

/-- Appending a fresh bucket for an absent key makes its lookup the singleton
bucket. -/
theorem objLookup_append_same (gs : List (String × List Row)) (k : String) (r : Row)
    (h : objLookup gs k = none) :
    objLookup (gs ++ [(k, [r])]) k = some [r] := by
  induction gs with
  | nil => simp [objLookup]
  | cons p ps ih =>
    rcases p with ⟨a, b⟩
    by_cases ha : a = k
    · simp [objLookup, if_pos ha] at h
    · simp only [objLookup, if_neg ha] at h
      simp only [List.cons_append, objLookup, if_neg ha]
      exact ih h

/-- After `pushGroup`, the pushed key's bucket is its previous content (empty
when absent) with the row appended. -/
theorem pushGroup_lookup_same (gs : List (String × List Row)) (k : String) (r : Row) :
    objLookup (pushGroup gs k r) k = some (((objLookup gs k).getD []) ++ [r]) := by
  unfold pushGroup
  rcases h : objLookup gs k with _ | l
  · simp only [Option.isSome_none, Bool.false_eq_true, if_false, Option.getD_none,
      List.nil_append]
    exact objLookup_append_same gs k r h
  · simp only [Option.isSome_some, if_true, Option.getD_some]
    exact objLookup_update_same gs k r l h

/-- After `pushGroup`, every other key's bucket is unchanged. -/
theorem pushGroup_lookup_other (gs : List (String × List Row)) (k k' : String) (r : Row)
    (hk : k' ≠ k) : objLookup (pushGroup gs k r) k' = objLookup gs k' := by
  unfold pushGroup
  by_cases hs : (objLookup gs k).isSome
  · rw [if_pos hs]
    exact objLookup_update_other gs k k' r hk
  · rw [if_neg hs]
    exact objLookup_append_other gs k k' r hk

/-- Invariant of the `groupBy` fold: a row already present in its key's bucket
stays there, and a row still to be processed ends up there. -/
theorem groupBy_loop_mem (column : String) (rows : List Row) :
    ∀ (gs : List (String × List Row)) (row : Row),
      ((∃ l, objLookup gs (groupKey row column) = some l ∧ row ∈ l) ∨ row ∈ rows) →
      ∃ l, objLookup (rows.foldl (fun acc r => pushGroup acc (groupKey r column) r) gs)
            (groupKey row column) = some l ∧ row ∈ l := by
  induction rows with
  | nil =>
    intro gs row h
    rcases h with h | h
    · exact h
    · cases h
  | cons r rs ih =>
    intro gs row h
    simp only [List.foldl_cons]
    apply ih
    rcases h with ⟨l, hl, hm⟩ | h
    · left
      by_cases hk : groupKey row column = groupKey r column
      · rw [hk] at hl ⊢
        refine ⟨l ++ [r], ?_, List.mem_append_left _ hm⟩
        rw [pushGroup_lookup_same gs (groupKey r column) r, hl]
        rfl
      · exact ⟨l, by rw [pushGroup_lookup_other gs _ _ r hk]; exact hl, hm⟩
    · rcases List.mem_cons.mp h with h' | h'
      · subst h'
        left
        refine ⟨((objLookup gs (groupKey row column)).getD []) ++ [row], ?_, ?_⟩
        · exact pushGroup_lookup_same gs (groupKey row column) row
        · exact List.mem_append_right _ (List.mem_singleton_self row)
      · right
        exact h'

/-- C2 counterexample: a row whose value is the number `0` is grouped under
the literal key `"null"`, not under its string representation `"0"` — the
source tests `row[column] || 'null'`, and `0` is falsy. -/
theorem groupBy_falsy_zero_cex :
    groupBy [[("g", Value.num 0)]] "g" = [("null", [[("g", Value.num 0)]])] ∧
    jsToString (Value.num 0) = "0" ∧ ("null" : String) ≠ "0" ∧
    objLookup (groupBy [[("g", Value.num 0)]] "g") "0" = none := by decide

/-- C2 amended: every row of the dataset is placed in the group whose key is
`groupKey` — the string representation of the row's value when that value is
truthy, and the literal key `"null"` when the value is missing, `null`, or any
other falsy value (the number `0`, the empty string, `false`). -/
theorem groupBy_places_row (data : List Row) (column : String) (row : Row)
    (h : row ∈ data) :
    ∃ l, objLookup (groupBy data column) (groupKey row column) = some l ∧ row ∈ l :=
  groupBy_loop_mem column data [] row (Or.inr h)

/-- Witness for `groupBy_places_row` at a concrete two-row dataset. -/
theorem groupBy_places_row_witness :
    [("g", Value.str "a")] ∈ ([[("g", Value.str "a")], [("g", Value.num 0)]] : List Row) ∧
    ∃ l, objLookup (groupBy [[("g", Value.str "a")], [("g", Value.num 0)]] "g")
          (groupKey [("g", Value.str "a")] "g") = some l ∧ [("g", Value.str "a")] ∈ l :=
  ⟨by decide, groupBy_places_row [[("g", Value.str "a")], [("g", Value.num 0)]] "g"
    [("g", Value.str "a")] (by decide)⟩

/-- C3 counterexample: a column whose only non-empty value sits after the
first 100 rows is reported `"unknown"`, although that value alone would be
classified `"number"` — the source slices the first 100 rows, not the first
100 non-empty values. -/
theorem detectColumnTypes_after100_cex :
    detectColumnTypes (List.replicate 100 ([] : Row) ++ [[("a", Value.str "1")]]) ["a"]
      = [("a", "unknown")] ∧
    typeOfSample [Value.str "1"] = "number" ∧ ("unknown" : String) ≠ "number" := by decide

/-- C3 amended: the type tag of a column is determined by (and only by) the
non-null, non-empty values found among the first 100 rows (`sampleOf`); in
particular an empty such sample yields `"unknown"` regardless of any values in
later rows. -/
theorem detectColumnTypes_sample_determined (data : List Row) (columns : List String)
    (col : String) (h : col ∈ columns) :
    objLookup (detectColumnTypes data columns) col =
      some (typeOfSample (sampleOf data col)) ∧
    (sampleOf data col = [] →
      objLookup (detectColumnTypes data columns) col = some "unknown") := by
  have hx : objLookup (detectColumnTypes data columns) col =
      some (typeOfSample (sampleOf data col)) :=
    objLookup_map_self (fun c => typeOfSample (sampleOf data c)) columns col h
  refine ⟨hx, fun he => ?_⟩
  rw [hx, he]
  rfl

/-- Witness for `detectColumnTypes_sample_determined` at a concrete dataset. -/
theorem detectColumnTypes_sample_determined_witness :
    ("a" ∈ (["a"] : List String)) ∧
    objLookup (detectColumnTypes [[("a", Value.str "7")], [("a", Value.null)]] ["a"]) "a" =
      some (typeOfSample (sampleOf [[("a", Value.str "7")], [("a", Value.null)]] "a")) :=
  ⟨by decide,
    (detectColumnTypes_sample_determined [[("a", Value.str "7")], [("a", Value.null)]]
      ["a"] "a" (by decide)).1⟩

/-- C8: the classification applies its checks with precedence number, then
date, then boolean, then string — a nonempty sample passing the all-numeric
check is tagged `"number"` no matter what the other checks would say, and the
later tags each require every earlier check to have failed. -/
theorem detectColumnTypes_number_first (data : List Row) (columns : List String)
    (col : String) (h : col ∈ columns) (hne : sampleOf data col ≠ [])
    (hnum : (sampleOf data col).all isNumericValue = true) :
    objLookup (detectColumnTypes data columns) col = some "number" ∧
    (∀ sample : List Value, sample ≠ [] → sample.all isNumericValue = false →
      sample.any looksLikeDate = true → typeOfSample sample = "date") ∧
    (∀ sample : List Value, sample ≠ [] → sample.all isNumericValue = false →
      sample.any looksLikeDate = false → sample.all isBooleanValue = true →
      typeOfSample sample = "boolean") ∧
    (∀ sample : List Value, sample ≠ [] → sample.all isNumericValue = false →
      sample.any looksLikeDate = false → sample.all isBooleanValue = false →
      typeOfSample sample = "string") := by
  refine ⟨?_, ?_, ?_, ?_⟩
  · have hx : objLookup (detectColumnTypes data columns) col =
        some (typeOfSample (sampleOf data col)) :=
      objLookup_map_self (fun c => typeOfSample (sampleOf data c)) columns col h
    have ht : typeOfSample (sampleOf data col) = "number" := by
      unfold typeOfSample
      rw [if_neg (by simpa [List.isEmpty_iff] using hne), if_pos hnum]
    rw [hx, ht]
  · intro s h1 h2 h3
    unfold typeOfSample
    rw [if_neg (by simpa [List.isEmpty_iff] using h1), if_neg (by simp [h2]), if_pos h3]
  · intro s h1 h2 h3 h4
    unfold typeOfSample
    rw [if_neg (by simpa [List.isEmpty_iff] using h1), if_neg (by simp [h2]),
      if_neg (by simp [h3]), if_pos h4]
  · intro s h1 h2 h3 h4
    unfold typeOfSample
    rw [if_neg (by simpa [List.isEmpty_iff] using h1), if_neg (by simp [h2]),
      if_neg (by simp [h3]), if_neg (by simp [h4])]

/-- Witness for `detectColumnTypes_number_first` at the spec's sample
`['1', '0', '1']`, which also passes the boolean check yet is tagged
`"number"`. -/
theorem detectColumnTypes_number_first_witness :
    ("a" ∈ (["a"] : List String) ∧
      sampleOf [[("a", Value.str "1")], [("a", Value.str "0")], [("a", Value.str "1")]] "a"
        ≠ [] ∧
      (sampleOf [[("a", Value.str "1")], [("a", Value.str "0")], [("a", Value.str "1")]]
        "a").all isNumericValue = true ∧
      (sampleOf [[("a", Value.str "1")], [("a", Value.str "0")], [("a", Value.str "1")]]
        "a").all isBooleanValue = true) ∧
    objLookup (detectColumnTypes
      [[("a", Value.str "1")], [("a", Value.str "0")], [("a", Value.str "1")]] ["a"]) "a" =
      some "number" :=
  ⟨⟨by decide, by decide, by decide, by decide⟩,
    (detectColumnTypes_number_first
      [[("a", Value.str "1")], [("a", Value.str "0")], [("a", Value.str "1")]] ["a"] "a"
      (by decide) (by decide) (by decide)).1⟩

/-- C7: on a non-empty dataset, a cell counts as missing exactly when it is
absent, `null`, the empty string, or the exact string `"N/A"`, and the
per-column report carries that count together with
`count / total * 100` rounded to two decimals. -/
theorem countMissingValues_spec (data : List Row) (columns : List String) (col : String)
    (hcol : col ∈ columns) (_hne : data ≠ []) :
    (∀ v : Option Value, isMissing v = true ↔
      (v = none ∨ v = some .null ∨ v = some (.str "") ∨ v = some (.str "N/A"))) ∧
    objLookup (countMissingValues data columns) col =
      some ⟨(data.filter (fun row => isMissing (getCell row col))).length,
        (jsRound ((((data.filter (fun row => isMissing (getCell row col))).length : ℚ) /
          (data.length : ℚ)) * 100 * 100) : ℚ) / 100⟩ := by
  constructor
  · rintro (_ | v)
    · simp [isMissing]
    · cases v <;> simp [isMissing]
  · exact objLookup_map_self (fun c => missingReportFor data c) columns col hcol

/-- Witness for `countMissingValues_spec` at the spec's example dataset:
count 3 of 5 rows, percentage 60. -/
theorem countMissingValues_spec_witness :
    ("a" ∈ (["a"] : List String) ∧
      ([[("a", Value.num 1)], [("a", Value.null)], [("a", Value.str "")],
        [("a", Value.str "N/A")], [("a", Value.num 2)]] : List Row) ≠ []) ∧
    objLookup (countMissingValues [[("a", Value.num 1)], [("a", Value.null)],
      [("a", Value.str "")], [("a", Value.str "N/A")], [("a", Value.num 2)]] ["a"]) "a" =
      some ⟨3, 60⟩ :=
  ⟨⟨by decide, by decide⟩, by
    rw [(countMissingValues_spec [[("a", Value.num 1)], [("a", Value.null)],
      [("a", Value.str "")], [("a", Value.str "N/A")], [("a", Value.num 2)]] ["a"] "a"
      (by decide) (by decide)).2]
    decide⟩

/-- C4 counterexample: for a group with no parseable numeric value the code
reports `0` for `sum` (empty reduction with initial value `0`), `Infinity`
for `min`, `-Infinity` for `max` — only `avg` actually yields `NaN`. -/
theorem aggregateGroups_empty_group_cex :
    aggregateGroups [("k", [[("a", Value.str "x")]])] "a" "sum" = [⟨"k", .fin 0, 1⟩] ∧
    aggregateGroups [("k", [[("a", Value.str "x")]])] "a" "min" = [⟨"k", .posInf, 1⟩] ∧
    aggregateGroups [("k", [[("a", Value.str "x")]])] "a" "max" = [⟨"k", .negInf, 1⟩] ∧
    aggregateGroups [("k", [[("a", Value.str "x")]])] "a" "avg" = [⟨"k", .nan, 1⟩] ∧
    (JsNum.fin 0 ≠ .nan ∧ JsNum.posInf ≠ .nan ∧ JsNum.negInf ≠ .nan) := by decide

/-- C4 amended: a group with zero parseable numeric values is reported with
value `0` for `sum`, `NaN` for `avg`/`mean`, `Infinity` for `min` and
`-Infinity` for `max` (each also carrying the group's total row count). -/
theorem aggregateGroups_empty_group (groups : List (String × List Row))
    (aggregateColumn : String) (key : String) (rows : List Row)
    (hmem : (key, rows) ∈ groups)
    (hnp : rows.filterMap (fun r => parseFloatV (getCell r aggregateColumn)) = []) :
    (⟨key, .fin 0, rows.length⟩ : GroupAggregate) ∈
      aggregateGroups groups aggregateColumn "sum" ∧
    (⟨key, .nan, rows.length⟩ : GroupAggregate) ∈
      aggregateGroups groups aggregateColumn "avg" ∧
    (⟨key, .nan, rows.length⟩ : GroupAggregate) ∈
      aggregateGroups groups aggregateColumn "mean" ∧
    (⟨key, .posInf, rows.length⟩ : GroupAggregate) ∈
      aggregateGroups groups aggregateColumn "min" ∧
    (⟨key, .negInf, rows.length⟩ : GroupAggregate) ∈
      aggregateGroups groups aggregateColumn "max" := by
  have hgen : ∀ (op : String) (res : JsNum), roundJs (aggregateOp [] op) = res →
      (⟨key, res, rows.length⟩ : GroupAggregate) ∈
        aggregateGroups groups aggregateColumn op := by
    intro op res hres
    unfold aggregateGroups
    refine List.mem_map.mpr ⟨(key, rows), hmem, ?_⟩
    show (⟨key, roundJs (aggregateOp
      (rows.filterMap (fun r => parseFloatV (getCell r aggregateColumn))) op),
      rows.length⟩ : GroupAggregate) = _
    rw [hnp, hres]
  exact ⟨hgen "sum" _ (by decide), hgen "avg" _ rfl, hgen "mean" _ rfl,
    hgen "min" _ rfl, hgen "max" _ rfl⟩

/-- Witness for `aggregateGroups_empty_group` at a concrete one-group,
one-unparseable-row input. -/
theorem aggregateGroups_empty_group_witness :
    (("k", [[("a", Value.str "x")]]) ∈ [("k", [[("a", Value.str "x")]])] ∧
      ([[("a", Value.str "x")]] : List Row).filterMap
        (fun r => parseFloatV (getCell r "a")) = []) ∧
    (⟨"k", .fin 0, 1⟩ : GroupAggregate) ∈
      aggregateGroups [("k", [[("a", Value.str "x")]])] "a" "sum" ∧
    (⟨"k", .nan, 1⟩ : GroupAggregate) ∈
      aggregateGroups [("k", [[("a", Value.str "x")]])] "a" "avg" :=
  ⟨⟨by decide, by decide⟩,
    (aggregateGroups_empty_group [("k", [[("a", Value.str "x")]])] "a" "k"
      [[("a", Value.str "x")]] (by decide) (by decide)).1,
    (aggregateGroups_empty_group [("k", [[("a", Value.str "x")]])] "a" "k"
      [[("a", Value.str "x")]] (by decide) (by decide)).2.1⟩

/-- The running fold of `Math.min` is bounded by its initial accumulator. -/
theorem foldl_min_le_init (xs : List ℚ) : ∀ x : ℚ, xs.foldl min x ≤ x := by
  induction xs with
  | nil => intro x; exact le_refl x
  | cons y ys ih =>
    intro x
    exact le_trans (ih (min x y)) (min_le_left x y)

/-- The fold of `Math.min` is bounded by every element it has seen. -/
theorem foldl_min_le_mem (xs : List ℚ) : ∀ (x v : ℚ), v ∈ xs → xs.foldl min x ≤ v := by
  induction xs with
  | nil => intro x v hv; cases hv
  | cons y ys ih =>
    intro x v hv
    rcases List.mem_cons.mp hv with rfl | hv'
    · exact le_trans (foldl_min_le_init ys (min x v)) (min_le_right x v)
    · exact ih (min x y) v hv'

/-- `Math.min(...l)` is a lower bound of every element of `l`. -/
theorem listMin_le (l : List ℚ) (v : ℚ) (h : v ∈ l) : listMin l ≤ v := by
  rcases l with _ | ⟨x, xs⟩
  · cases h
  · unfold listMin
    rcases List.mem_cons.mp h with rfl | h'
    · exact foldl_min_le_init xs v
    · exact foldl_min_le_mem xs x v h'

/-- The running fold of `Math.max` dominates its initial accumulator. -/
theorem init_le_foldl_max (xs : List ℚ) : ∀ x : ℚ, x ≤ xs.foldl max x := by
  induction xs with
  | nil => intro x; exact le_refl x
  | cons y ys ih =>
    intro x
    exact le_trans (le_max_left x y) (ih (max x y))

/-- The fold of `Math.max` dominates every element it has seen. -/
theorem mem_le_foldl_max (xs : List ℚ) : ∀ (x v : ℚ), v ∈ xs → v ≤ xs.foldl max x := by
  induction xs with
  | nil => intro x v hv; cases hv
  | cons y ys ih =>
    intro x v hv
    rcases List.mem_cons.mp hv with rfl | hv'
    · exact le_trans (le_max_right x v) (init_le_foldl_max ys (max x v))
    · exact ih (max x y) v hv'

/-- `Math.max(...l)` is an upper bound of every element of `l`. -/
theorem le_listMax (l : List ℚ) (v : ℚ) (h : v ∈ l) : v ≤ listMax l := by
  rcases l with _ | ⟨x, xs⟩
  · cases h
  · unfold listMax
    rcases List.mem_cons.mp h with rfl | h'
    · exact init_le_foldl_max xs v
    · exact mem_le_foldl_max xs x v h'

/-- The arithmetic mean of a nonempty list lies between its minimum and its
maximum. -/
theorem meanOf_between (l : List ℚ) (h : l ≠ []) :
    listMin l ≤ meanOf l ∧ meanOf l ≤ listMax l := by
  have hlen : (0 : ℚ) < (l.length : ℚ) := by
    exact_mod_cast List.length_pos.mpr h
  constructor
  · have hsum : (l.length : ℚ) * listMin l ≤ l.sum := by
      have hb := List.card_nsmul_le_sum l (listMin l) (fun x hx => listMin_le l x hx)
      rwa [nsmul_eq_mul] at hb
    unfold meanOf
    rw [le_div_iff₀ hlen, mul_comm]
    exact hsum
  · have hsum : l.sum ≤ (l.length : ℚ) * listMax l := by
      have hb := List.sum_le_card_nsmul l (listMax l) (fun x hx => le_listMax l x hx)
      rwa [nsmul_eq_mul] at hb
    unfold meanOf
    rw [div_le_iff₀ hlen, mul_comm]
    exact hsum

/-- The median of a nonempty list lies between its minimum and its maximum
(whether it is a middle element or the average of the two middle elements). -/
theorem medianOf_between (l : List ℚ) (h : l ≠ []) :
    listMin l ≤ medianOf l ∧ medianOf l ≤ listMax l := by
  have hperm := List.perm_insertionSort (fun a b : ℚ => a ≤ b) l
  have hbound : ∀ i, i < (l.insertionSort (· ≤ ·)).length →
      listMin l ≤ (l.insertionSort (· ≤ ·)).getD i 0 ∧
        (l.insertionSort (· ≤ ·)).getD i 0 ≤ listMax l := by
    intro i hi
    rw [List.getD_eq_getElem _ 0 hi]
    have hm : (l.insertionSort (· ≤ ·))[i] ∈ l := hperm.mem_iff.mp (List.getElem_mem hi)
    exact ⟨listMin_le l _ hm, le_listMax l _ hm⟩
  have hpos : 0 < (l.insertionSort (· ≤ ·)).length := by
    rw [hperm.length_eq]
    exact List.length_pos.mpr h
  simp only [medianOf]
  by_cases hpar : (l.insertionSort (· ≤ ·)).length % 2 = 0
  · rw [if_pos hpar]
    have h2 : (l.insertionSort (· ≤ ·)).length / 2 < (l.insertionSort (· ≤ ·)).length :=
      Nat.div_lt_self hpos (by norm_num)
    have h1 : (l.insertionSort (· ≤ ·)).length / 2 - 1 < (l.insertionSort (· ≤ ·)).length :=
      lt_of_le_of_lt (Nat.sub_le _ _) h2
    obtain ⟨ha1, ha2⟩ := hbound _ h1
    obtain ⟨hb1, hb2⟩ := hbound _ h2
    constructor <;> [linarith; linarith]
  · rw [if_neg hpar]
    have h2 : (l.insertionSort (· ≤ ·)).length / 2 < (l.insertionSort (· ≤ ·)).length :=
      Nat.div_lt_self hpos (by norm_num)
    exact hbound _ h2

/-- `Math.round` computes a value within half a unit of its argument. -/
theorem jsRound_bounds (q : ℚ) : q - 1 / 2 < (jsRound q : ℚ) ∧ (jsRound q : ℚ) ≤ q + 1 / 2 := by
  unfold jsRound
  constructor
  · have hb := Int.lt_floor_add_one (q + 1 / 2)
    push_cast at hb ⊢
    linarith
  · have hb := Int.floor_le (q + 1 / 2)
    push_cast at hb ⊢
    linarith

/-- The two-decimal rounding of the source computes a value within
`1/200 = 0.005` of its argument. -/
theorem round2_bounds (q : ℚ) : q - 1 / 200 < round2 q ∧ round2 q ≤ q + 1 / 200 := by
  obtain ⟨h1, h2⟩ := jsRound_bounds (q * 100)
  unfold round2
  constructor
  · have h3 : (q * 100 - 1 / 2) / 100 < (jsRound (q * 100) : ℚ) / 100 := by gcongr
    have h4 : (q * 100 - 1 / 2) / 100 = q - 1 / 200 := by ring
    linarith
  · have h3 : (jsRound (q * 100) : ℚ) / 100 ≤ (q * 100 + 1 / 2) / 100 := by gcongr
    have h4 : (q * 100 + 1 / 2) / 100 = q + 1 / 200 := by ring
    linarith

/-- C1 counterexample: on the one-row dataset `[{x: 0.004}]` the returned
summary has `min = max = 1/250` but rounded `median = mean = 0`, so
`min ≤ median` and `min ≤ mean` both fail for the record as returned. -/
theorem calculateStatistics_rounding_cex :
    calculateStatistics [[("x", Value.num (1 / 250))]] "x" =
      some ⟨"x", 1, 0, 0, 1 / 250, 1 / 250, 0⟩ ∧
    (calculateStatistics [[("x", Value.num (1 / 250))]] "x").map
      (fun s => (decide (s.min ≤ s.median), decide (s.min ≤ s.mean)))
      = some (false, false) := by decide

/-- C1 amended: for a summary actually returned, `min ≤ max`; the unrounded
mean and median lie in `[min, max]`; and the rounded `mean` and `median`
fields lie within the interval enlarged by the rounding slack `1/200` (the
counterexample `calculateStatistics_rounding_cex` shows the unenlarged bounds
fail for the rounded fields). -/
theorem calculateStatistics_bounds (data : List Row) (column : String)
    (s : StatisticsSummary) (h : calculateStatistics data column = some s) :
    s.min ≤ s.max ∧
    s.min ≤ meanOf (numericValues data column) ∧
    meanOf (numericValues data column) ≤ s.max ∧
    s.min ≤ medianOf (numericValues data column) ∧
    medianOf (numericValues data column) ≤ s.max ∧
    s.min - 1 / 200 < s.mean ∧ s.mean ≤ s.max + 1 / 200 ∧
    s.min - 1 / 200 < s.median ∧ s.median ≤ s.max + 1 / 200 := by
  simp only [calculateStatistics] at h
  split at h
  · cases h
  · split at h
    · cases h
    · rename_i hd hv
      have hvne : numericValues data column ≠ [] := by
        simpa [List.isEmpty_iff] using hv
      obtain rfl := (Option.some_inj.mp h).symm
      dsimp only
      obtain ⟨hm1, hm2⟩ := meanOf_between (numericValues data column) hvne
      obtain ⟨hd1, hd2⟩ := medianOf_between (numericValues data column) hvne
      obtain ⟨hr1, hr2⟩ := round2_bounds (meanOf (numericValues data column))
      obtain ⟨hs1, hs2⟩ := round2_bounds (medianOf (numericValues data column))
      exact ⟨le_trans hm1 hm2, hm1, hm2, hd1, hd2,
        by linarith, by linarith, by linarith, by linarith⟩

/-- Witness for `calculateStatistics_bounds` at a three-row dataset with two
parseable values `1` and `2.5`: the unrounded mean `7/4` lies between the
returned `min = 1` and `max = 5/2`. -/
theorem calculateStatistics_bounds_witness :
    (1 : ℚ) ≤ meanOf (numericValues
      [[("x", Value.num 1)], [("x", Value.str "2.5")], [("x", Value.str "nope")]] "x") ∧
    meanOf (numericValues
      [[("x", Value.num 1)], [("x", Value.str "2.5")], [("x", Value.str "nope")]] "x") ≤ 5 / 2 :=
  have h : calculateStatistics
      [[("x", Value.num 1)], [("x", Value.str "2.5")], [("x", Value.str "nope")]] "x" =
      some ⟨"x", 2, 7 / 4, 7 / 4, 1, 5 / 2, 7 / 2⟩ := by decide
  ⟨(calculateStatistics_bounds _ "x" _ h).2.1, (calculateStatistics_bounds _ "x" _ h).2.2.1⟩

/-- Justification of the computable anomaly filter: for a nonnegative variance,
the source's test `Math.abs(value - mean) > 2 * Math.sqrt(variance)` holds
exactly when `(value - mean)² > 4 * variance`. -/
theorem anomalyTest_iff_sqrt (m v x : ℚ) (hv : 0 ≤ v) :
    ((x - m) ^ 2 > 4 * v) ↔ |(x : ℝ) - (m : ℝ)| > 2 * Real.sqrt (v : ℝ) := by
  have hv' : (0 : ℝ) ≤ (v : ℝ) := by exact_mod_cast hv
  have ha : (0 : ℝ) ≤ 2 * Real.sqrt (v : ℝ) := by positivity
  have hb : (0 : ℝ) ≤ |(x : ℝ) - (m : ℝ)| := abs_nonneg _
  simp only [gt_iff_lt]
  rw [← pow_lt_pow_iff_left₀ ha hb (two_ne_zero)]
  have h1 : (2 * Real.sqrt (v : ℝ)) ^ 2 = 4 * (v : ℝ) := by
    rw [mul_pow, Real.sq_sqrt hv']
    norm_num
  rw [h1, sq_abs]
  exact_mod_cast Iff.rfl

/-- The numeric payloads of the indexed extraction are exactly the plain
numeric extraction, whatever the starting index. -/
theorem enumFrom_filterMap_snd (column : String) (data : List Row) :
    ∀ n : ℕ,
      ((List.enumFrom n data).filterMap
        (fun p => (parseFloatV (getCell p.2 column)).map (fun q => (p.1, q)))).map Prod.snd =
      data.filterMap (fun row => parseFloatV (getCell row column)) := by
  induction data with
  | nil => intro n; rfl
  | cons row rest ih =>
    intro n
    simp only [List.enumFrom]
    rcases hp : parseFloatV (getCell row column) with _ | q
    · simp only [List.filterMap_cons, hp, Option.map_none']
      exact ih (n + 1)
    · simp only [List.filterMap_cons, hp, Option.map_some', List.map_cons]
      rw [ih (n + 1)]

/-- The values carried by `indexedValues` are exactly `numericValues`. -/
theorem indexedValues_map_snd (data : List Row) (column : String) :
    (indexedValues data column).map Prod.snd = numericValues data column := by
  unfold indexedValues numericValues
  exact enumFrom_filterMap_snd column data 0

/-- A list that is pairwise equal has all its members equal to each other. -/
theorem pairwise_eq_all {l : List ℚ} (h : l.Pairwise (· = ·)) :
    ∀ v ∈ l, ∀ w ∈ l, v = w := by
  induction l with
  | nil => intro v hv; cases hv
  | cons x xs ih =>
    obtain ⟨hx, hxs⟩ := List.pairwise_cons.mp h
    intro v hv w hw
    rcases List.mem_cons.mp hv with rfl | hv' <;> rcases List.mem_cons.mp hw with rfl | hw'
    · rfl
    · exact hx w hw'
    · exact (hx v hv').symm
    · exact ih hxs v hv' w hw'

/-- The mean of a nonempty constant list is that constant. -/
theorem meanOf_of_all_eq {l : List ℚ} {c : ℚ} (hne : l ≠ []) (h : ∀ v ∈ l, v = c) :
    meanOf l = c := by
  have hlen : (0 : ℚ) < (l.length : ℚ) := by exact_mod_cast List.length_pos.mpr hne
  have hsum : l.sum = l.length • c := List.sum_eq_card_nsmul l c h
  unfold meanOf
  rw [hsum, nsmul_eq_mul]
  exact mul_div_cancel_left₀ c (ne_of_gt hlen)

/-- The population variance of a constant list is zero. -/
theorem varianceOf_of_all_eq {l : List ℚ} {c : ℚ} (hne : l ≠ []) (h : ∀ v ∈ l, v = c) :
    varianceOf l = 0 := by
  have hm := meanOf_of_all_eq hne h
  have hz : ∀ x ∈ l.map (fun v => (v - meanOf l) ^ 2), x = 0 := by
    intro x hx
    obtain ⟨v, hv, rfl⟩ := List.mem_map.mp hx
    rw [h v hv, hm, sub_self]
    ring
  unfold varianceOf
  rw [List.sum_eq_card_nsmul _ 0 hz, smul_zero, zero_div]

/-- C6: when every parseable numeric value of the column is identical, no
value deviates from the mean (the standard deviation is zero and so is the
threshold), so `findAnomalies` reports no anomaly — in particular the division
by the standard deviation in deviation reporting, which only happens for
reported anomalies, is never reached. -/
theorem findAnomalies_const_empty (data : List Row) (column : String)
    (h : (numericValues data column).Pairwise (· = ·)) :
    findAnomalies data column = [] := by
  have hav : anomalousValues data column = [] := by
    simp only [anomalousValues]
    split
    · rfl
    · split
      · rfl
      · rename_i hd hlen
        apply List.filter_eq_nil_iff.mpr
        intro item hitem
        have hitem2 : item.2 ∈ numericValues data column := by
          rw [← indexedValues_map_snd data column]
          exact List.mem_map_of_mem Prod.snd hitem
        have hne : numericValues data column ≠ [] := by
          intro hcon
          rw [hcon] at hitem2
          cases hitem2
        have hall : ∀ v ∈ numericValues data column, v = item.2 :=
          fun v hv => pairwise_eq_all h v hv item.2 hitem2
        rw [indexedValues_map_snd data column, meanOf_of_all_eq hne hall,
          varianceOf_of_all_eq hne hall]
        simp
  unfold findAnomalies
  rw [hav]
  rfl

/-- Witness for `findAnomalies_const_empty` at a three-row constant dataset. -/
theorem findAnomalies_const_empty_witness :
    (numericValues [[("x", Value.num 5)], [("x", Value.num 5)], [("x", Value.num 5)]]
      "x").Pairwise (· = ·) ∧
    findAnomalies [[("x", Value.num 5)], [("x", Value.num 5)], [("x", Value.num 5)]] "x" = [] :=
  ⟨by decide,
    findAnomalies_const_empty [[("x", Value.num 5)], [("x", Value.num 5)], [("x", Value.num 5)]]
      "x" (by decide)⟩

end TabularStats
